import Mathlib

/-!
Verification of the search-quality-checker core (`app.py`): the relevance
analyzer `run_analysis` and the form-submission validation that builds the
concept groups.  Python strings are modelled as Lean `String`s, Python's
parsed-JSON values as the inductive `JValue`, and `json.dumps` /
`str.lower` / `str.strip` / `str.split(',')` as executable Lean functions
on character lists.
-/

set_option autoImplicit false

namespace SearchChecker

/-- Python `str.lower()` restricted to ASCII case mapping: lowercases each
character (`json.dumps` output with `ensure_ascii` is pure ASCII, so this
is exact for the serialized blob). -/
def pyLower (s : String) : String :=
  String.mk (s.data.map Char.toLower)

/-- Characters removed by Python `str.strip()` (ASCII whitespace). -/
def isStripChar (c : Char) : Bool :=
  c = ' ' || c = Char.ofNat 9 || c = Char.ofNat 10 || c = Char.ofNat 13 ||
    c = Char.ofNat 11 || c = Char.ofNat 12

/-- Python `str.strip()`: drop leading and trailing whitespace. -/
def pyStrip (s : String) : String :=
  String.mk (((s.data.dropWhile isStripChar).reverse.dropWhile isStripChar).reverse)

/-- Python `str.split(',')` on the character list: split at every comma,
never collapsing, so `"".split(',') = [""]` and `",".split(',') = ["", ""]`. -/
def splitCommaChars : List Char → List (List Char)
  | [] => [[]]
  | c :: cs =>
    if c = ',' then [] :: splitCommaChars cs
    else
      match splitCommaChars cs with
      | [] => [[c]]
      | r :: rs => (c :: r) :: rs

/-- Python `str.split(',')` as a `String` operation. -/
def pySplitComma (s : String) : List String :=
  (splitCommaChars s.data).map String.mk

/-- Line 155 of `app.py`, inner comprehension:
`[kw.strip().lower() for kw in group_str.split(',')]`. -/
def parseGroup (group_str : String) : List String :=
  (pySplitComma group_str).map (fun kw => pyLower (pyStrip kw))

/-- Boolean test that `n` is an initial segment of `l`. -/
def startsWithB : List Char → List Char → Bool
  | [], _ => true
  | _ :: _, [] => false
  | a :: as, b :: bs => if a = b then startsWithB as bs else false

/-- Boolean scan for `needle` occurring contiguously inside `hay`. -/
def infixScan (needle : List Char) : List Char → Bool
  | [] => needle.isEmpty
  | c :: rest => startsWithB needle (c :: rest) || infixScan needle rest

/-- Python's `needle in hay` substring test on strings. -/
def strContains (hay needle : String) : Bool :=
  infixScan needle.data hay.data

/-- Specification-level substring relation: `needle` occurs contiguously in
`hay`. -/
abbrev SubStrL (needle hay : List Char) : Prop :=
  ∃ pre post, hay = pre ++ needle ++ post

/-- `enumerate` starting from a given index. -/
def enumFromIdx {α : Type} : Nat → List α → List (Nat × α)
  | _, [] => []
  | i, x :: xs => (i, x) :: enumFromIdx (i + 1) xs

/-- Python `enumerate(l)`. -/
def enumerate {α : Type} (l : List α) : List (Nat × α) :=
  enumFromIdx 0 l

/-- A parsed JSON value as produced by `response.json()`. JSON numbers are
modelled as integers (no claim depends on float formatting). -/
inductive JValue where
  | null : JValue
  | bool : Bool → JValue
  | num : Int → JValue
  | str : String → JValue
  | arr : List JValue → JValue
  | obj : List (String × JValue) → JValue

/-- A JSON object (Python dict): ordered association list with the keys
unique in any value actually produced by `json.loads`. -/
abbrev Jobj := List (String × JValue)

/-- Lowercase hexadecimal digit. -/
def hexDigit (n : Nat) : Char :=
  if n < 10 then Char.ofNat (48 + n) else Char.ofNat (87 + n)

/-- Four lowercase hex digits, as in Python's `\uXXXX` escapes. -/
def hex4 (n : Nat) : String :=
  String.mk [hexDigit (n / 4096 % 16), hexDigit (n / 256 % 16),
    hexDigit (n / 16 % 16), hexDigit (n % 16)]

/-- `json.dumps` escaping of one character (default `ensure_ascii=True`):
quote, backslash and control characters escaped, non-ASCII as `\uXXXX`
(surrogate pairs above the BMP). -/
def escapeJsonChar (c : Char) : String :=
  if c = Char.ofNat 34 then "\\\""
  else if c = Char.ofNat 92 then "\\\\"
  else if c = Char.ofNat 10 then "\\n"
  else if c = Char.ofNat 9 then "\\t"
  else if c = Char.ofNat 13 then "\\r"
  else if c = Char.ofNat 8 then "\\b"
  else if c = Char.ofNat 12 then "\\f"
  else if c.toNat < 32 then "\\u" ++ hex4 c.toNat
  else if c.toNat < 127 then String.singleton c
  else if c.toNat < 65536 then "\\u" ++ hex4 c.toNat
  else
    "\\u" ++ hex4 (55296 + (c.toNat - 65536) / 1024) ++
      "\\u" ++ hex4 (56320 + (c.toNat - 65536) % 1024)

/-- `json.dumps` escaping of a string body. -/
def escapeJsonString (s : String) : String :=
  String.join (s.data.map escapeJsonChar)

/-- The double-quote character as a string. -/
def dquote : String := String.singleton (Char.ofNat 34)

/-- The single-quote character as a string. -/
def squote : String := String.singleton (Char.ofNat 39)

/-- A JSON string literal as emitted by `json.dumps`. -/
def jsonQuote (s : String) : String :=
  dquote ++ escapeJsonString s ++ dquote

mutual
/-- Python `json.dumps` with its default separators `", "` and `": "`. -/
def dumps : JValue → String
  | JValue.null => "null"
  | JValue.bool true => "true"
  | JValue.bool false => "false"
  | JValue.num n => toString n
  | JValue.str s => jsonQuote s
  | JValue.arr xs => "[" ++ String.intercalate ", " (dumpsList xs) ++ "]"
  | JValue.obj fs => "\x7b" ++ String.intercalate ", " (dumpsObj fs) ++ "\x7d"

/-- `json.dumps` of each element of a JSON array. -/
def dumpsList : List JValue → List String
  | [] => []
  | x :: xs => dumps x :: dumpsList xs

/-- `json.dumps` of each `key: value` entry of a JSON object. -/
def dumpsObj : List (String × JValue) → List String
  | [] => []
  | (k, v) :: fs => (jsonQuote k ++ ": " ++ dumps v) :: dumpsObj fs
end

/-- Python `repr()` escaping for characters inside a single-quoted string. -/
def escapeReprChar (c : Char) : String :=
  if c = Char.ofNat 92 then "\\\\"
  else if c = Char.ofNat 39 then String.mk [Char.ofNat 92, Char.ofNat 39]
  else if c = Char.ofNat 10 then "\\n"
  else if c = Char.ofNat 9 then "\\t"
  else if c = Char.ofNat 13 then "\\r"
  else String.singleton c

/-- Python `repr()` of a string, single-quoted. -/
def reprQuote (s : String) : String :=
  squote ++ String.join (s.data.map escapeReprChar) ++ squote

mutual
/-- Python `repr()` of a parsed JSON value. -/
def pyRepr : JValue → String
  | JValue.null => "None"
  | JValue.bool true => "True"
  | JValue.bool false => "False"
  | JValue.num n => toString n
  | JValue.str s => reprQuote s
  | JValue.arr xs => "[" ++ String.intercalate ", " (pyReprList xs) ++ "]"
  | JValue.obj fs => "\x7b" ++ String.intercalate ", " (pyReprObj fs) ++ "\x7d"

/-- `repr()` of each element of a list. -/
def pyReprList : List JValue → List String
  | [] => []
  | x :: xs => pyRepr x :: pyReprList xs

/-- `repr()` of each `key: value` entry of a dict. -/
def pyReprObj : List (String × JValue) → List String
  | [] => []
  | (k, v) :: fs => (reprQuote k ++ ": " ++ pyRepr v) :: pyReprObj fs
end

/-- Python `str()` of a parsed JSON value, as used by f-string interpolation:
a string interpolates as itself, everything else via `repr`. -/
def pyStr : JValue → String
  | JValue.str s => s
  | v => pyRepr v

/-- Python `dict.get(key, default)`. -/
def jobjGet (product_payload : Jobj) (key : String) (dflt : JValue) : JValue :=
  match List.lookup key product_payload with
  | some v => v
  | none => dflt

/-- Line 52 of `app.py`: `json.dumps(product_payload).lower()`. -/
def productAsString (product_payload : Jobj) : String :=
  pyLower (dumps (JValue.obj product_payload))

/-- Line 56 of `app.py`:
`any(variation in product_as_string for variation in group_variations)`. -/
def anyVariationMatches (product_as_string : String) (group_variations : List String) : Bool :=
  group_variations.any (fun variation => strContains product_as_string variation)

/-- Lines 54-57 of `app.py`: the group indices (from `enumerate`) for which
no variation occurs in the serialized product, appended in order. -/
def failed_group_indices (check_groups : List (List String)) (product_as_string : String) : List Nat :=
  ((enumerate check_groups).filter
    (fun gi => ! anyVariationMatches product_as_string gi.2)).map (fun gi => gi.1)

/-- One entry of `relevant_products_data` (lines 60-64 of `app.py`). -/
structure RelevantRow where
  position : Nat
  product_id : JValue
  product_name : JValue

/-- One entry of `irrelevant_products_data` (lines 66-71 of `app.py`). -/
structure IrrelevantRow where
  position : Nat
  product_id : JValue
  product_name : JValue
  failed_indices : List Nat

/-- The success payload of `run_analysis` (lines 79-86 of `app.py`);
`failure_summary` is the `Counter` as a multiset of group indices. -/
structure AnalysisReport where
  total_products : Nat
  relevant_products : List RelevantRow
  irrelevant_products : List IrrelevantRow
  failure_summary : Multiset Nat
  llm_formatted_output : String

/-- The mutable state of the `for` loop of `run_analysis`
(lines 37-40 of `app.py`). -/
structure LoopState where
  irrelevant_products_data : List IrrelevantRow
  relevant_products_data : List RelevantRow
  failure_reason_counter : Multiset Nat
  llm_formatted_texts : List String

/-- Lines 44-48 of `app.py`: the f-string block for one product, with the
`'N/A'` default for a missing title or description. -/
def llmBlock (i : Nat) (product_payload : Jobj) : String :=
  "prod " ++ toString (i + 1) ++ ":\ntitle: " ++
    pyStr (jobjGet product_payload "title" (JValue.str "N/A")) ++
    "\ndescription: " ++
    pyStr (jobjGet product_payload "description" (JValue.str "N/A"))

/-- The dict appended to `relevant_products_data` at index `i`. -/
def mkRelevantRow (i : Nat) (product_payload : Jobj) : RelevantRow :=
  { position := i + 1,
    product_id := jobjGet product_payload "product_id" (JValue.str "N/A"),
    product_name := jobjGet product_payload "title" (JValue.str "N/A") }

/-- The dict appended to `irrelevant_products_data` at index `i`. -/
def mkIrrelevantRow (check_groups : List (List String)) (i : Nat)
    (product_payload : Jobj) : IrrelevantRow :=
  { position := i + 1,
    product_id := jobjGet product_payload "product_id" (JValue.str "N/A"),
    product_name := jobjGet product_payload "title" (JValue.str "N/A"),
    failed_indices := failed_group_indices check_groups (productAsString product_payload) }

/-- One iteration of the `for` loop of `run_analysis` (lines 42-72 of
`app.py`): append the LLM block, classify, and update the counter. -/
def stepProduct (check_groups : List (List String)) (st : LoopState)
    (ip : Nat × Jobj) : LoopState :=
  let failed := failed_group_indices check_groups (productAsString ip.2)
  let st' := { st with llm_formatted_texts := st.llm_formatted_texts ++ [llmBlock ip.1 ip.2] }
  if failed.isEmpty then
    { st' with relevant_products_data := st'.relevant_products_data ++ [mkRelevantRow ip.1 ip.2] }
  else
    { st' with
      irrelevant_products_data := st'.irrelevant_products_data ++ [mkIrrelevantRow check_groups ip.1 ip.2],
      failure_reason_counter := st'.failure_reason_counter + Multiset.ofList failed }

/-- Lines 37-86 of `app.py`: the analysis loop over `enumerate(products)`
and the assembly of the success dictionary. -/
def analyzeProducts (search_keyword : String) (check_groups : List (List String))
    (products : List Jobj) : AnalysisReport :=
  let final := (enumerate products).foldl (stepProduct check_groups)
    { irrelevant_products_data := [], relevant_products_data := [],
      failure_reason_counter := 0, llm_formatted_texts := [] }
  { total_products := products.length,
    relevant_products := final.relevant_products_data,
    irrelevant_products := final.irrelevant_products_data,
    failure_summary := final.failure_reason_counter,
    llm_formatted_output :=
      "search term: " ++ search_keyword ++ "\n\n" ++
        String.intercalate "\n\n" final.llm_formatted_texts }

/-- The return value of `run_analysis`: the `"status"` key is `"success"`
with the report, or `"error"` with a message. -/
inductive AnalysisResult where
  | success : AnalysisReport → AnalysisResult
  | error : String → AnalysisResult

/-- How the search service behaves for one request, covering the branches
of the `try`/`except` in `run_analysis`: a 2xx response whose parsed body
has an optional `products` list, an HTTP error status, a transport
failure, or any other raised exception. -/
inductive ServiceBehavior where
  | ok : Option (List Jobj) → ServiceBehavior
  | httpError : Nat → String → ServiceBehavior
  | networkError : String → ServiceBehavior
  | otherError : String → ServiceBehavior

/-- Lines 28-93 of `app.py`: `run_analysis`, with the network call
abstracted into the `ServiceBehavior` that the service exhibits. -/
def run_analysis (search_keyword : String) (check_groups : List (List String))
    (behavior : ServiceBehavior) : AnalysisResult :=
  match behavior with
  | ServiceBehavior.ok body =>
    let products := body.getD []
    if products.isEmpty then
      AnalysisResult.error
        ("No products were returned for the search term " ++ squote ++ search_keyword ++ squote ++ ".")
    else
      AnalysisResult.success (analyzeProducts search_keyword check_groups products)
  | ServiceBehavior.httpError status body =>
    AnalysisResult.error ("API Error (Status Code: " ++ toString status ++ "): " ++ body)
  | ServiceBehavior.networkError details =>
    AnalysisResult.error ("Network Error: Could not connect to the API. Details: " ++ details)
  | ServiceBehavior.otherError msg =>
    AnalysisResult.error ("An unexpected error occurred: " ++ msg)

/-- What the submission handler does before (or instead of) calling
`run_analysis`: the warning of line 152, the error of line 158, or the call
of line 161 with the stripped shop id, stripped keyword and parsed groups. -/
inductive SubmitOutcome where
  | warnFillAll : SubmitOutcome
  | errNoValidGroup : SubmitOutcome
  | runAnalysisCall : String → String → List (List String) → SubmitOutcome
deriving DecidableEq

/-- Lines 148-161 of `app.py`: the `if submitted:` block.
`all([shop_id, search_keyword_input] + [inp.strip() for inp in check_group_inputs])`
demands a non-empty shop id, a non-empty keyword and every group input
non-blank; then the non-blank groups are parsed and an empty group list is
rejected. -/
def handleSubmit (shop_id : String) (search_keyword_input : String)
    (check_group_inputs : List String) : SubmitOutcome :=
  if (shop_id == "") || (search_keyword_input == "") ||
      check_group_inputs.any (fun inp => pyStrip inp == "") then
    SubmitOutcome.warnFillAll
  else
    let check_groups := (check_group_inputs.filter
      (fun group_str => !(pyStrip group_str == ""))).map parseGroup
    if check_groups.isEmpty then
      SubmitOutcome.errNoValidGroup
    else
      SubmitOutcome.runAnalysisCall (pyStrip shop_id) (pyStrip search_keyword_input) check_groups

/-- Specification-level satisfaction of a concept group: some variation of
the group occurs as a literal substring of the text. -/
abbrev GroupSatisfied (s : String) (group_variations : List String) : Prop :=
  ∃ v ∈ group_variations, SubStrL v.data s.data

theorem startsWithB_iff (n : List Char) : ∀ l : List Char,
    startsWithB n l = true ↔ ∃ post, l = n ++ post := by
  induction n with
  | nil =>
    intro l
    constructor
    · intro _
      exact ⟨l, rfl⟩
    · intro _
      rfl
  | cons a as ih =>
    intro l
    cases l with
    | nil =>
      constructor
      · intro h
        exact absurd h (by simp [startsWithB])
      · rintro ⟨post, h⟩
        cases h
    | cons b bs =>
      constructor
      · intro h
        rw [show startsWithB (a :: as) (b :: bs) = if a = b then startsWithB as bs else false from rfl] at h
        by_cases hab : a = b
        · rw [if_pos hab] at h
          subst hab
          obtain ⟨post, rfl⟩ := (ih bs).mp h
          exact ⟨post, rfl⟩
        · rw [if_neg hab] at h
          cases h
      · rintro ⟨post, h⟩
        rw [List.cons_append] at h
        injection h with h1 h2
        subst h1
        subst h2
        show (if b = b then startsWithB as (as ++ post) else false) = true
        rw [if_pos rfl]
        exact (ih (as ++ post)).mpr ⟨post, rfl⟩

theorem infixScan_iff (n : List Char) : ∀ l : List Char,
    infixScan n l = true ↔ SubStrL n l := by
  intro l
  induction l with
  | nil =>
    constructor
    · intro h
      cases n with
      | nil => exact ⟨[], [], rfl⟩
      | cons c cs => exact absurd h (by simp [infixScan])
    · rintro ⟨pre, post, h⟩
      have h' := h.symm
      rw [List.append_assoc] at h'
      rcases List.append_eq_nil.mp h' with ⟨hpre, hnp⟩
      rcases List.append_eq_nil.mp hnp with ⟨hn, hpost⟩
      subst hn
      rfl
  | cons c rest ih =>
    rw [show infixScan n (c :: rest) = (startsWithB n (c :: rest) || infixScan n rest) from rfl]
    rw [Bool.or_eq_true, startsWithB_iff n (c :: rest), ih]
    constructor
    · rintro (⟨post, h⟩ | ⟨pre, post, h⟩)
      · exact ⟨[], post, by simpa using h⟩
      · exact ⟨c :: pre, post, by simp [h]⟩
    · rintro ⟨pre, post, h⟩
      cases pre with
      | nil =>
        exact Or.inl ⟨post, by simpa using h⟩
      | cons d ds =>
        rw [List.cons_append, List.cons_append] at h
        injection h with h1 h2
        exact Or.inr ⟨ds, post, h2⟩

theorem strContains_iff (hay needle : String) :
    strContains hay needle = true ↔ SubStrL needle.data hay.data :=
  infixScan_iff needle.data hay.data

theorem SubStrL_map (f : Char → Char) {n l : List Char} (h : SubStrL n l) :
    SubStrL (n.map f) (l.map f) := by
  rcases h with ⟨pre, post, rfl⟩
  exact ⟨pre.map f, post.map f, by simp⟩

theorem pyLower_data (s : String) : (pyLower s).data = s.data.map Char.toLower := rfl

theorem strContains_pyLower {hay needle : String}
    (h : strContains hay needle = true) :
    strContains (pyLower hay) (pyLower needle) = true := by
  rw [strContains_iff] at h ⊢
  rw [pyLower_data, pyLower_data]
  exact SubStrL_map Char.toLower h

theorem strContains_empty (s : String) : strContains s "" = true := by
  show infixScan [] s.data = true
  cases s.data with
  | nil => rfl
  | cons c rest => simp [infixScan, startsWithB]

theorem anyVariationMatches_iff (s : String) (g : List String) :
    anyVariationMatches s g = true ↔ GroupSatisfied s g := by
  simp only [anyVariationMatches, List.any_eq_true, GroupSatisfied, strContains_iff]

theorem mem_enumFromIdx {α : Type} (l : List α) : ∀ (i j : Nat) (a : α),
    (j, a) ∈ enumFromIdx i l ↔ ∃ k, j = i + k ∧ l.get? k = some a := by
  induction l with
  | nil =>
    intro i j a
    simp [enumFromIdx]
  | cons x xs ih =>
    intro i j a
    simp only [enumFromIdx, List.mem_cons, Prod.mk.injEq, ih (i + 1)]
    constructor
    · rintro (⟨rfl, rfl⟩ | ⟨k, rfl, hk⟩)
      · exact ⟨0, by simp⟩
      · exact ⟨k + 1, by omega, by simpa using hk⟩
    · rintro ⟨k, rfl, hk⟩
      cases k with
      | zero =>
        simp only [List.get?] at hk
        exact Or.inl ⟨by omega, by injection hk with h; exact h.symm⟩
      | succ m =>
        refine Or.inr ⟨m, by omega, ?_⟩
        simpa using hk

theorem enumFromIdx_fst_ge {α : Type} (l : List α) : ∀ (i : Nat),
    ∀ p ∈ enumFromIdx i l, i ≤ p.1 := by
  induction l with
  | nil =>
    intro i p hp
    simp [enumFromIdx] at hp
  | cons x xs ih =>
    intro i p hp
    simp only [enumFromIdx, List.mem_cons] at hp
    rcases hp with rfl | hp
    · exact Nat.le_refl i
    · exact Nat.le_of_lt (Nat.lt_of_lt_of_le (Nat.lt_succ_self i) (ih (i + 1) p hp))

theorem enumFromIdx_pairwise {α : Type} (l : List α) : ∀ (i : Nat),
    (enumFromIdx i l).Pairwise (fun p q => p.1 < q.1) := by
  induction l with
  | nil =>
    intro i
    exact List.Pairwise.nil
  | cons x xs ih =>
    intro i
    refine List.Pairwise.cons ?_ (ih (i + 1))
    intro q hq
    exact Nat.lt_of_lt_of_le (Nat.lt_succ_self i) (enumFromIdx_fst_ge xs (i + 1) q hq)

theorem mem_enumerate {α : Type} (l : List α) (j : Nat) (a : α) :
    (j, a) ∈ enumerate l ↔ l.get? j = some a := by
  rw [enumerate, mem_enumFromIdx]
  constructor
  · rintro ⟨k, rfl, hk⟩
    simpa using hk
  · intro h
    exact ⟨j, by omega, h⟩

theorem enumerate_pairwise {α : Type} (l : List α) :
    (enumerate l).Pairwise (fun p q => p.1 < q.1) :=
  enumFromIdx_pairwise l 0

theorem enumerate_length {α : Type} (l : List α) :
    (enumerate l).length = l.length := by
  rw [enumerate]
  generalize 0 = i
  induction l generalizing i with
  | nil => rfl
  | cons x xs ih => simp [enumFromIdx, ih]

theorem mem_failed_group_indices (check_groups : List (List String)) (s : String) (j : Nat) :
    j ∈ failed_group_indices check_groups s ↔
      ∃ g, check_groups.get? j = some g ∧ anyVariationMatches s g = false := by
  unfold failed_group_indices
  rw [List.mem_map]
  constructor
  · rintro ⟨⟨j', g⟩, hgi, rfl⟩
    rw [List.mem_filter, mem_enumerate] at hgi
    exact ⟨g, hgi.1, by simpa using hgi.2⟩
  · rintro ⟨g, hget, hfail⟩
    refine ⟨(j, g), ?_, rfl⟩
    rw [List.mem_filter, mem_enumerate]
    exact ⟨hget, by simpa using hfail⟩

theorem failed_group_indices_pairwise (check_groups : List (List String)) (s : String) :
    (failed_group_indices check_groups s).Pairwise (· < ·) := by
  unfold failed_group_indices
  exact List.Pairwise.map _ (fun a b h => h)
    (List.Pairwise.sublist (List.filter_sublist _) (enumerate_pairwise check_groups))

theorem failed_group_indices_nodup (check_groups : List (List String)) (s : String) :
    (failed_group_indices check_groups s).Nodup :=
  (failed_group_indices_pairwise check_groups s).imp Nat.ne_of_lt

theorem failed_group_indices_eq_nil (check_groups : List (List String)) (s : String) :
    failed_group_indices check_groups s = [] ↔
      ∀ j g, check_groups.get? j = some g → anyVariationMatches s g = true := by
  rw [List.eq_nil_iff_forall_not_mem]
  constructor
  · intro h j g hget
    cases hb : anyVariationMatches s g with
    | false => exact absurd ((mem_failed_group_indices _ _ _).mpr ⟨g, hget, hb⟩) (h j)
    | true => rfl
  · intro h j hmem
    obtain ⟨g, hget, hb⟩ := (mem_failed_group_indices _ _ _).mp hmem
    rw [h j g hget] at hb
    cases hb

theorem foldl_stepProduct (check_groups : List (List String)) :
    ∀ (l : List (Nat × Jobj)) (st : LoopState),
      l.foldl (stepProduct check_groups) st =
        { irrelevant_products_data := st.irrelevant_products_data ++
            (l.filter (fun ip => !(failed_group_indices check_groups (productAsString ip.2)).isEmpty)).map
              (fun ip => mkIrrelevantRow check_groups ip.1 ip.2),
          relevant_products_data := st.relevant_products_data ++
            (l.filter (fun ip => (failed_group_indices check_groups (productAsString ip.2)).isEmpty)).map
              (fun ip => mkRelevantRow ip.1 ip.2),
          failure_reason_counter := st.failure_reason_counter +
            (l.map (fun ip => Multiset.ofList (failed_group_indices check_groups (productAsString ip.2)))).sum,
          llm_formatted_texts := st.llm_formatted_texts ++
            l.map (fun ip => llmBlock ip.1 ip.2) } := by
  intro l
  induction l with
  | nil =>
    intro st
    simp
  | cons x xs ih =>
    intro st
    rw [List.foldl_cons, ih]
    by_cases hx : (failed_group_indices check_groups (productAsString x.2)).isEmpty = true
    · rw [List.isEmpty_iff] at hx
      simp [stepProduct, hx, List.filter_cons, List.append_assoc]
    · rw [Bool.not_eq_true] at hx
      have hx' : failed_group_indices check_groups (productAsString x.2) ≠ [] := by
        intro hnil
        rw [hnil] at hx
        cases hx
      simp [stepProduct, hx, hx', List.filter_cons, List.append_assoc, add_assoc]

theorem analyzeProducts_total (search_keyword : String) (check_groups : List (List String))
    (products : List Jobj) :
    (analyzeProducts search_keyword check_groups products).total_products = products.length := rfl

theorem analyzeProducts_relevant (search_keyword : String) (check_groups : List (List String))
    (products : List Jobj) :
    (analyzeProducts search_keyword check_groups products).relevant_products =
      ((enumerate products).filter
        (fun ip => (failed_group_indices check_groups (productAsString ip.2)).isEmpty)).map
          (fun ip => mkRelevantRow ip.1 ip.2) := by
  unfold analyzeProducts
  rw [foldl_stepProduct]
  rfl

theorem analyzeProducts_irrelevant (search_keyword : String) (check_groups : List (List String))
    (products : List Jobj) :
    (analyzeProducts search_keyword check_groups products).irrelevant_products =
      ((enumerate products).filter
        (fun ip => !(failed_group_indices check_groups (productAsString ip.2)).isEmpty)).map
          (fun ip => mkIrrelevantRow check_groups ip.1 ip.2) := by
  unfold analyzeProducts
  rw [foldl_stepProduct]
  rfl

theorem analyzeProducts_summary (search_keyword : String) (check_groups : List (List String))
    (products : List Jobj) :
    (analyzeProducts search_keyword check_groups products).failure_summary =
      ((enumerate products).map
        (fun ip => Multiset.ofList (failed_group_indices check_groups (productAsString ip.2)))).sum := by
  unfold analyzeProducts
  rw [foldl_stepProduct]
  exact zero_add _

theorem analyzeProducts_llm (search_keyword : String) (check_groups : List (List String))
    (products : List Jobj) :
    (analyzeProducts search_keyword check_groups products).llm_formatted_output =
      "search term: " ++ search_keyword ++ "\n\n" ++
        String.intercalate "\n\n" ((enumerate products).map (fun ip => llmBlock ip.1 ip.2)) := by
  unfold analyzeProducts
  rw [foldl_stepProduct]
  rfl

theorem length_filter_split {α : Type} (p : α → Bool) (l : List α) :
    (l.filter p).length + (l.filter (fun x => !p x)).length = l.length := by
  induction l with
  | nil => rfl
  | cons x xs ih =>
    rw [List.filter_cons, List.filter_cons]
    by_cases hx : p x = true
    · rw [if_pos hx, if_neg (by simp [hx])]
      simp only [List.length_cons]
      omega
    · rw [if_neg hx, if_pos (by simp [Bool.not_eq_true] at hx ⊢; exact hx)]
      simp only [List.length_cons]
      omega

theorem count_sum_ofList {α : Type} (j : Nat) (g : α → List Nat) :
    ∀ L : List α, (∀ x ∈ L, (g x).Nodup) →
      Multiset.count j (L.map (fun x => Multiset.ofList (g x))).sum =
        (L.filter (fun x => decide (j ∈ g x))).length := by
  intro L
  induction L with
  | nil =>
    intro _
    rfl
  | cons f fs ih =>
    intro hnd
    rw [List.map_cons, List.sum_cons, Multiset.count_add,
      ih (fun x hx => hnd x (List.mem_cons_of_mem f hx)), List.filter_cons]
    by_cases hj : j ∈ g f
    · rw [if_pos (by simpa using hj), Multiset.coe_count,
        List.count_eq_one_of_mem (hnd f (List.mem_cons_self f fs)) hj]
      simp only [List.length_cons]
      omega
    · rw [if_neg (by simpa using hj), Multiset.coe_count,
        List.count_eq_zero_of_not_mem hj]
      omega

theorem card_sum_ofList {α : Type} (g : α → List Nat) : ∀ L : List α,
    Multiset.card (L.map (fun x => Multiset.ofList (g x))).sum =
      (L.map (fun x => (g x).length)).sum := by
  intro L
  induction L with
  | nil => rfl
  | cons f fs ih =>
    rw [List.map_cons, List.sum_cons, Multiset.card_add, ih, Multiset.coe_card,
      List.map_cons, List.sum_cons]

theorem mem_sum_ofList {α : Type} (j : Nat) (g : α → List Nat) : ∀ L : List α,
    (j ∈ (L.map (fun x => Multiset.ofList (g x))).sum ↔ ∃ x ∈ L, j ∈ g x) := by
  intro L
  induction L with
  | nil => simp
  | cons f fs ih =>
    rw [List.map_cons, List.sum_cons, Multiset.mem_add, Multiset.mem_coe, ih]
    simp

theorem filter_restrict {α : Type} (P Q : α → Bool) (h : ∀ x, P x = true → Q x = true) :
    ∀ l : List α, (l.filter Q).filter P = l.filter P := by
  intro l
  induction l with
  | nil => rfl
  | cons x xs ih =>
    cases hq : Q x with
    | true => simp [List.filter_cons, hq, ih]
    | false =>
      have hp : P x = false := by
        cases hp : P x with
        | false => rfl
        | true =>
          rw [h x hp] at hq
          cases hq
      simp [List.filter_cons, hq, hp, ih]

theorem anyVariationMatches_false_iff (s : String) (g : List String) :
    anyVariationMatches s g = false ↔ ¬ GroupSatisfied s g := by
  rw [← anyVariationMatches_iff]
  cases anyVariationMatches s g <;> simp

theorem mem_relevant_iff (search_keyword : String) (check_groups : List (List String))
    (products : List Jobj) (row : RelevantRow) :
    row ∈ (analyzeProducts search_keyword check_groups products).relevant_products ↔
      ∃ i p, (i, p) ∈ enumerate products ∧
        failed_group_indices check_groups (productAsString p) = [] ∧
        row = mkRelevantRow i p := by
  rw [analyzeProducts_relevant, List.mem_map]
  constructor
  · rintro ⟨⟨i, p⟩, hip, rfl⟩
    rw [List.mem_filter] at hip
    exact ⟨i, p, hip.1, List.isEmpty_iff.mp hip.2, rfl⟩
  · rintro ⟨i, p, hmem, hnil, rfl⟩
    exact ⟨(i, p), List.mem_filter.mpr ⟨hmem, by simp [hnil]⟩, rfl⟩

theorem mem_irrelevant_iff (search_keyword : String) (check_groups : List (List String))
    (products : List Jobj) (row : IrrelevantRow) :
    row ∈ (analyzeProducts search_keyword check_groups products).irrelevant_products ↔
      ∃ i p, (i, p) ∈ enumerate products ∧
        failed_group_indices check_groups (productAsString p) ≠ [] ∧
        row = mkIrrelevantRow check_groups i p := by
  rw [analyzeProducts_irrelevant, List.mem_map]
  constructor
  · rintro ⟨⟨i, p⟩, hip, rfl⟩
    rw [List.mem_filter] at hip
    refine ⟨i, p, hip.1, ?_, rfl⟩
    have := hip.2
    intro hnil
    rw [hnil] at this
    simp at this
  · rintro ⟨i, p, hmem, hne, rfl⟩
    refine ⟨(i, p), List.mem_filter.mpr ⟨hmem, ?_⟩, rfl⟩
    cases hsp : (failed_group_indices check_groups (productAsString p)).isEmpty with
    | false => rfl
    | true => exact absurd (List.isEmpty_iff.mp hsp) hne

theorem relevant_position_iff (search_keyword : String) (check_groups : List (List String))
    (products : List Jobj) (i : Nat) (p : Jobj) (hp : products.get? i = some p) :
    (∃ row ∈ (analyzeProducts search_keyword check_groups products).relevant_products,
        row.position = i + 1) ↔
      failed_group_indices check_groups (productAsString p) = [] := by
  constructor
  · rintro ⟨row, hrow, hpos⟩
    obtain ⟨i', p', hmem, hnil, rfl⟩ := (mem_relevant_iff _ _ _ _).mp hrow
    have hi : i' = i := by
      have : i' + 1 = i + 1 := hpos
      omega
    subst hi
    rw [mem_enumerate, hp] at hmem
    injection hmem with hmem
    rw [hmem]
    exact hnil
  · intro hnil
    exact ⟨mkRelevantRow i p,
      (mem_relevant_iff _ _ _ _).mpr ⟨i, p, (mem_enumerate _ _ _).mpr hp, hnil, rfl⟩, rfl⟩

theorem irrelevant_position_iff (search_keyword : String) (check_groups : List (List String))
    (products : List Jobj) (i : Nat) (p : Jobj) (hp : products.get? i = some p) :
    (∃ row ∈ (analyzeProducts search_keyword check_groups products).irrelevant_products,
        row.position = i + 1) ↔
      failed_group_indices check_groups (productAsString p) ≠ [] := by
  constructor
  · rintro ⟨row, hrow, hpos⟩
    obtain ⟨i', p', hmem, hne, rfl⟩ := (mem_irrelevant_iff _ _ _ _).mp hrow
    have hi : i' = i := by
      have : i' + 1 = i + 1 := hpos
      omega
    subst hi
    rw [mem_enumerate, hp] at hmem
    injection hmem with hmem
    rw [hmem]
    exact hne
  · intro hne
    exact ⟨mkIrrelevantRow check_groups i p,
      (mem_irrelevant_iff _ _ _ _).mpr ⟨i, p, (mem_enumerate _ _ _).mpr hp, hne, rfl⟩, rfl⟩

theorem irrelevant_failed_indices (search_keyword : String) (check_groups : List (List String))
    (products : List Jobj) (row : IrrelevantRow)
    (hrow : row ∈ (analyzeProducts search_keyword check_groups products).irrelevant_products)
    (i : Nat) (p : Jobj) (hp : products.get? i = some p) (hpos : row.position = i + 1) :
    row.failed_indices = failed_group_indices check_groups (productAsString p) := by
  obtain ⟨i', p', hmem, hne, rfl⟩ := (mem_irrelevant_iff _ _ _ _).mp hrow
  have hi : i' = i := by
    have : i' + 1 = i + 1 := hpos
    omega
  subst hi
  rw [mem_enumerate, hp] at hmem
  injection hmem with hmem
  rw [hmem]
  rfl

theorem length_filter_map_eq {α β : Type} (f : α → β) (p : β → Bool) : ∀ l : List α,
    ((l.map f).filter p).length = (l.filter (fun x => p (f x))).length := by
  intro l
  induction l with
  | nil => rfl
  | cons x xs ih =>
    rw [List.map_cons, List.filter_cons, List.filter_cons]
    cases p (f x) with
    | false => simpa using ih
    | true => simpa using ih

theorem sum_length_skip_nil {α : Type} (g : α → List Nat) : ∀ L : List α,
    (L.map (fun x => (g x).length)).sum =
      ((L.filter (fun x => !(g x).isEmpty)).map (fun x => (g x).length)).sum := by
  intro L
  induction L with
  | nil => rfl
  | cons x xs ih =>
    rw [List.map_cons, List.sum_cons, List.filter_cons]
    cases hx : (g x).isEmpty with
    | false =>
      rw [ih]
      rfl
    | true =>
      rw [List.isEmpty_iff.mp hx]
      simpa using ih

theorem splitCommaChars_ne_nil : ∀ l : List Char, splitCommaChars l ≠ [] := by
  intro l
  induction l with
  | nil => simp [splitCommaChars]
  | cons c cs ih =>
    by_cases hc : c = ','
    · simp [splitCommaChars, hc]
    · cases hsp : splitCommaChars cs with
      | nil => exact absurd hsp ih
      | cons r rs => simp [splitCommaChars, hc, hsp]

theorem mkRelevantRow_position (i : Nat) (p : Jobj) : (mkRelevantRow i p).position = i + 1 := rfl

theorem mkIrrelevantRow_position (check_groups : List (List String)) (i : Nat) (p : Jobj) :
    (mkIrrelevantRow check_groups i p).position = i + 1 := rfl

theorem mkIrrelevantRow_failed (check_groups : List (List String)) (i : Nat) (p : Jobj) :
    (mkIrrelevantRow check_groups i p).failed_indices =
      failed_group_indices check_groups (productAsString p) := rfl

theorem parseGroup_ne_nil (raw : String) : parseGroup raw ≠ [] := by
  unfold parseGroup pySplitComma
  simp only [ne_eq, List.map_eq_nil_iff]
  exact splitCommaChars_ne_nil _

/-- C6: `run_analysis` never raises: for every search-service behavior it
returns a success or an error dictionary; an empty or missing products list
yields the error naming the query and never a success with
`total_products = 0`; an HTTP error yields the message carrying the status
code and body; a transport failure yields the network-error message; any
other exception yields the generic diagnostic. -/
theorem c6_error_handling (search_keyword : String) (check_groups : List (List String))
    (behavior : ServiceBehavior) :
    ((∃ rep, run_analysis search_keyword check_groups behavior = AnalysisResult.success rep) ∨
      (∃ msg, run_analysis search_keyword check_groups behavior = AnalysisResult.error msg)) ∧
    (run_analysis search_keyword check_groups (ServiceBehavior.ok none) =
      AnalysisResult.error
        ("No products were returned for the search term " ++ squote ++ search_keyword ++ squote ++ ".")) ∧
    (run_analysis search_keyword check_groups (ServiceBehavior.ok (some [])) =
      AnalysisResult.error
        ("No products were returned for the search term " ++ squote ++ search_keyword ++ squote ++ ".")) ∧
    (∀ rep, run_analysis search_keyword check_groups behavior = AnalysisResult.success rep →
      0 < rep.total_products) ∧
    (∀ status body, run_analysis search_keyword check_groups (ServiceBehavior.httpError status body) =
      AnalysisResult.error ("API Error (Status Code: " ++ toString status ++ "): " ++ body)) ∧
    (∀ details, run_analysis search_keyword check_groups (ServiceBehavior.networkError details) =
      AnalysisResult.error ("Network Error: Could not connect to the API. Details: " ++ details)) ∧
    (∀ msg, run_analysis search_keyword check_groups (ServiceBehavior.otherError msg) =
      AnalysisResult.error ("An unexpected error occurred: " ++ msg)) := by
  refine ⟨?_, rfl, rfl, ?_, fun _ _ => rfl, fun _ => rfl, fun _ => rfl⟩
  · cases behavior with
    | ok body =>
      cases body with
      | none => exact Or.inr ⟨_, rfl⟩
      | some products =>
        cases products with
        | nil => exact Or.inr ⟨_, rfl⟩
        | cons p ps => exact Or.inl ⟨_, rfl⟩
    | httpError status body => exact Or.inr ⟨_, rfl⟩
    | networkError details => exact Or.inr ⟨_, rfl⟩
    | otherError msg => exact Or.inr ⟨_, rfl⟩
  · intro rep hrep
    cases behavior with
    | ok body =>
      cases body with
      | none => cases hrep
      | some products =>
        cases products with
        | nil => cases hrep
        | cons p ps =>
          have : AnalysisResult.success (analyzeProducts search_keyword check_groups (p :: ps)) =
              AnalysisResult.success rep := hrep
          injection this with this
          rw [← this, analyzeProducts_total]
          exact Nat.succ_pos _
    | httpError status body => cases hrep
    | networkError details => cases hrep
    | otherError msg => cases hrep

/-- C6 witness: at a concrete behavior the dichotomy and all the error
messages hold. -/
theorem c6_error_handling_witness :
    ((∃ rep, run_analysis "tv" [["a"]] (ServiceBehavior.ok (some [[("title", JValue.str "x")]])) =
        AnalysisResult.success rep) ∨
      (∃ msg, run_analysis "tv" [["a"]] (ServiceBehavior.ok (some [[("title", JValue.str "x")]])) =
        AnalysisResult.error msg)) ∧
    (run_analysis "tv" [["a"]] (ServiceBehavior.ok none) =
      AnalysisResult.error
        ("No products were returned for the search term " ++ squote ++ "tv" ++ squote ++ ".")) ∧
    (run_analysis "tv" [["a"]] (ServiceBehavior.ok (some [])) =
      AnalysisResult.error
        ("No products were returned for the search term " ++ squote ++ "tv" ++ squote ++ ".")) ∧
    (∀ rep, run_analysis "tv" [["a"]] (ServiceBehavior.ok (some [[("title", JValue.str "x")]])) =
        AnalysisResult.success rep →
      0 < rep.total_products) ∧
    (∀ status body, run_analysis "tv" [["a"]] (ServiceBehavior.httpError status body) =
      AnalysisResult.error ("API Error (Status Code: " ++ toString status ++ "): " ++ body)) ∧
    (∀ details, run_analysis "tv" [["a"]] (ServiceBehavior.networkError details) =
      AnalysisResult.error ("Network Error: Could not connect to the API. Details: " ++ details)) ∧
    (∀ msg, run_analysis "tv" [["a"]] (ServiceBehavior.otherError msg) =
      AnalysisResult.error ("An unexpected error occurred: " ++ msg)) :=
  c6_error_handling "tv" [["a"]] (ServiceBehavior.ok (some [[("title", JValue.str "x")]]))

/-- C7: matching is case-insensitive end to end: whenever the raw JSON
serialization of a result contains any occurrence `w` whose lowercasing is
`"hdr10+"`, the concept group built from the input `"HDR10+"` (which is
lowercased to `["hdr10+"]` when groups are built) is satisfied by the
lowercased serialization used by the analyzer. -/
theorem c7_case_insensitive (p : Jobj) (w : String)
    (h1 : strContains (dumps (JValue.obj p)) w = true)
    (h2 : pyLower w = "hdr10+") :
    parseGroup "HDR10+" = ["hdr10+"] ∧
    anyVariationMatches (productAsString p) (parseGroup "HDR10+") = true := by
  have hparse : parseGroup "HDR10+" = ["hdr10+"] := by decide
  refine ⟨hparse, ?_⟩
  rw [hparse]
  have h3 : strContains (productAsString p) "hdr10+" = true := by
    have hl := strContains_pyLower h1
    rw [h2] at hl
    exact hl
  simp [anyVariationMatches, h3]

/-- C7 witness: a record whose title carries `"HDR10+"` in mixed case
satisfies the group. -/
theorem c7_case_insensitive_witness :
    strContains (dumps (JValue.obj [("title", JValue.str "Super HDR10+ TV")])) "HDR10+" = true ∧
    pyLower "HDR10+" = "hdr10+" ∧
    (parseGroup "HDR10+" = ["hdr10+"] ∧
      anyVariationMatches (productAsString [("title", JValue.str "Super HDR10+ TV")])
        (parseGroup "HDR10+") = true) :=
  ⟨by decide, by decide,
    c7_case_insensitive [("title", JValue.str "Super HDR10+ TV")] "HDR10+" (by decide) (by decide)⟩

/-- C9: a group containing the empty variation (as produced by the input
`","`) is satisfied by every result, so its index never appears in any
`failed_indices` list nor in `failure_summary`. -/
theorem c9_empty_variation (search_keyword : String) (check_groups : List (List String))
    (products : List Jobj) (j : Nat) (g : List String)
    (hget : check_groups.get? j = some g) (he : "" ∈ g) :
    (∀ s, anyVariationMatches s g = true) ∧
    (∀ row ∈ (analyzeProducts search_keyword check_groups products).irrelevant_products,
      j ∉ row.failed_indices) ∧
    j ∉ (analyzeProducts search_keyword check_groups products).failure_summary ∧
    "" ∈ parseGroup "," := by
  have hsat : ∀ s, anyVariationMatches s g = true := by
    intro s
    exact List.any_eq_true.mpr ⟨"", he, strContains_empty s⟩
  have hnf : ∀ p : Jobj, j ∉ failed_group_indices check_groups (productAsString p) := by
    intro p hj
    obtain ⟨g', hget', hfail⟩ := (mem_failed_group_indices _ _ _).mp hj
    rw [hget] at hget'
    injection hget' with hget'
    rw [← hget', hsat (productAsString p)] at hfail
    cases hfail
  refine ⟨hsat, ?_, ?_, by decide⟩
  · intro row hrow hj
    obtain ⟨i, p, _, _, rfl⟩ := (mem_irrelevant_iff _ _ _ _).mp hrow
    exact hnf p hj
  · intro hj
    rw [analyzeProducts_summary] at hj
    obtain ⟨ip, _, hjf⟩ := (mem_sum_ofList j _ _).mp hj
    exact hnf ip.2 hjf

/-- C9 witness: with the single group `[""]` (from input `","`) no product
is ever attributed a failure of that group. -/
theorem c9_empty_variation_witness :
    (∀ s, anyVariationMatches s [""] = true) ∧
    (∀ row ∈ (analyzeProducts "q" [[""]] [[("title", JValue.str "x")]]).irrelevant_products,
      0 ∉ row.failed_indices) ∧
    0 ∉ (analyzeProducts "q" [[""]] [[("title", JValue.str "x")]]).failure_summary ∧
    "" ∈ parseGroup "," :=
  c9_empty_variation "q" [[""]] [[("title", JValue.str "x")]] 0 [""] (by decide) (by decide)

/-- C2 counterexample: with a non-empty shop id and query and the group
inputs `["hdr", " "]` — one blank among non-blank — the submission is
rejected with the fill-all warning instead of proceeding with the remaining
group `["hdr"]`, refuting the claim that blank groups are merely dropped. -/
theorem c2_counterexample_blank_group :
    handleSubmit "shop1" "tv" ["hdr", " "] = SubmitOutcome.warnFillAll ∧
    handleSubmit "shop1" "tv" ["hdr", " "] ≠
      SubmitOutcome.runAnalysisCall "shop1" "tv" [["hdr"]] :=
  ⟨by decide, by decide⟩

/-- C2 amended: with a non-empty shop id and query, the submission is
rejected with a warning (before any analysis) as soon as ANY concept-group
input is blank after trimming; when every group input is non-blank the
filtering drops nothing and the analysis call receives every group; the
no-valid-group error occurs only for an empty input list. -/
theorem c2_amended_validation (shop_id : String) (search_keyword_input : String)
    (check_group_inputs : List String)
    (hs : shop_id ≠ "") (hq : search_keyword_input ≠ "") :
    (check_group_inputs.any (fun inp => pyStrip inp == "") = true →
      handleSubmit shop_id search_keyword_input check_group_inputs =
        SubmitOutcome.warnFillAll) ∧
    (check_group_inputs.any (fun inp => pyStrip inp == "") = false →
      check_group_inputs ≠ [] →
      handleSubmit shop_id search_keyword_input check_group_inputs =
        SubmitOutcome.runAnalysisCall (pyStrip shop_id) (pyStrip search_keyword_input)
          (check_group_inputs.map parseGroup)) ∧
    (check_group_inputs = [] →
      handleSubmit shop_id search_keyword_input check_group_inputs =
        SubmitOutcome.errNoValidGroup) := by
  have hs' : (shop_id == "") = false := by
    simp [hs]
  have hq' : (search_keyword_input == "") = false := by
    simp [hq]
  refine ⟨?_, ?_, ?_⟩
  · intro hany
    simp [handleSubmit, hs', hq', hany]
  · intro hany hne
    have hfilter : check_group_inputs.filter (fun group_str => !(pyStrip group_str == "")) =
        check_group_inputs := by
      apply List.filter_eq_self.mpr
      intro a ha
      cases hb : (pyStrip a == "") with
      | false => rfl
      | true =>
        rw [List.any_eq_false] at hany
        exact absurd hb (hany a ha)
    have hie : ((check_group_inputs.filter
        (fun group_str => !(pyStrip group_str == ""))).map parseGroup).isEmpty = false := by
      rw [hfilter]
      cases check_group_inputs with
      | nil => exact absurd rfl hne
      | cons a as => rfl
    simp only [handleSubmit, hs', hq', hany, hie, Bool.or_false, Bool.false_or,
      Bool.false_eq_true, if_false]
    rw [hfilter]
  · intro hnil
    subst hnil
    simp [handleSubmit, hs', hq']

/-- C2 amended witness: at shop `"s"`, query `"q"` and the single non-blank
group input `"a"` the three amended branches hold. -/
theorem c2_amended_validation_witness :
    ((["a"] : List String).any (fun inp => pyStrip inp == "") = true →
      handleSubmit "s" "q" ["a"] = SubmitOutcome.warnFillAll) ∧
    ((["a"] : List String).any (fun inp => pyStrip inp == "") = false →
      (["a"] : List String) ≠ [] →
      handleSubmit "s" "q" ["a"] =
        SubmitOutcome.runAnalysisCall (pyStrip "s") (pyStrip "q")
          ((["a"] : List String).map parseGroup)) ∧
    ((["a"] : List String) = [] →
      handleSubmit "s" "q" ["a"] = SubmitOutcome.errNoValidGroup) :=
  c2_amended_validation "s" "q" ["a"] (by decide) (by decide)

/-- C3 counterexample: the group input `","` is non-blank, so it passes
validation and reaches the analyzer, but its parsed variation list is
`["", ""]` — it contains no variation that is non-empty after trimming. -/
theorem c3_counterexample_comma_group :
    handleSubmit "s" "q" [","] = SubmitOutcome.runAnalysisCall "s" "q" [["", ""]] ∧
    (["", ""] : List String).all (fun v => v == "") = true :=
  ⟨by decide, by decide⟩

/-- C3 amended: every concept group handed to the analyzer is a non-empty
LIST of variations, parsed from an input that is non-blank after trimming —
but its variations may all be the empty string (e.g. from the input
`","`). -/
theorem c3_amended_group_invariant (shop_id : String) (search_keyword_input : String)
    (check_group_inputs : List String) (shop_s keyword_s : String)
    (check_groups : List (List String))
    (h : handleSubmit shop_id search_keyword_input check_group_inputs =
      SubmitOutcome.runAnalysisCall shop_s keyword_s check_groups) :
    ∀ g ∈ check_groups, g ≠ [] ∧
      ∃ raw ∈ check_group_inputs, pyStrip raw ≠ "" ∧ g = parseGroup raw := by
  intro g hg
  simp only [handleSubmit] at h
  by_cases h1 : ((shop_id == "") || (search_keyword_input == "") ||
      check_group_inputs.any (fun inp => pyStrip inp == "")) = true
  · rw [if_pos h1] at h
    cases h
  · rw [if_neg h1] at h
    by_cases h2 : ((check_group_inputs.filter
        (fun group_str => !(pyStrip group_str == ""))).map parseGroup).isEmpty = true
    · rw [if_pos h2] at h
      cases h
    · rw [if_neg h2] at h
      injection h with e1 e2 e3
      rw [← e3] at hg
      rw [List.mem_map] at hg
      obtain ⟨raw, hraw, rfl⟩ := hg
      rw [List.mem_filter] at hraw
      refine ⟨parseGroup_ne_nil raw, raw, hraw.1, ?_, rfl⟩
      have hb := hraw.2
      intro hs0
      rw [hs0] at hb
      simp at hb

/-- C3 amended witness: from the concrete call with input `"a"` the group
`["a"]` is non-empty and traces back to its non-blank raw input. -/
theorem c3_amended_group_invariant_witness :
    (["a"] : List String) ≠ [] ∧
      ∃ raw ∈ (["a"] : List String), pyStrip raw ≠ "" ∧ (["a"] : List String) = parseGroup raw :=
  c3_amended_group_invariant "s" "q" ["a"] "s" "q" [["a"]] (by decide) ["a"] (by decide)

/-- C1: the analyzer classifies a result as relevant iff for every concept
group at least one variation occurs as a literal substring of the lowercased
JSON serialization of the whole record (AND across groups, OR within a
group); when irrelevant, the recorded `failed_indices` are exactly the
unsatisfied group indices, 0-based, in ascending definition order; with zero
groups the result is relevant. -/
theorem c1_classification (search_keyword : String) (check_groups : List (List String))
    (products : List Jobj) (i : Nat) (p : Jobj) (hp : products.get? i = some p) :
    ((∃ row ∈ (analyzeProducts search_keyword check_groups products).relevant_products,
        row.position = i + 1) ↔
      ∀ j g, check_groups.get? j = some g → GroupSatisfied (productAsString p) g) ∧
    (∀ row ∈ (analyzeProducts search_keyword check_groups products).irrelevant_products,
      row.position = i + 1 →
        ((∀ j, j ∈ row.failed_indices ↔
            ∃ g, check_groups.get? j = some g ∧ ¬ GroupSatisfied (productAsString p) g) ∧
          row.failed_indices.Pairwise (fun a b => a < b))) ∧
    (check_groups = [] →
      ∃ row ∈ (analyzeProducts search_keyword check_groups products).relevant_products,
        row.position = i + 1) := by
  have hmain : (∃ row ∈ (analyzeProducts search_keyword check_groups products).relevant_products,
        row.position = i + 1) ↔
      ∀ j g, check_groups.get? j = some g → GroupSatisfied (productAsString p) g := by
    rw [relevant_position_iff _ _ _ _ _ hp, failed_group_indices_eq_nil]
    constructor
    · intro h j g hg
      exact (anyVariationMatches_iff _ _).mp (h j g hg)
    · intro h j g hg
      exact (anyVariationMatches_iff _ _).mpr (h j g hg)
  refine ⟨hmain, ?_, ?_⟩
  · intro row hrow hpos
    have hfi := irrelevant_failed_indices _ _ _ row hrow i p hp hpos
    constructor
    · intro j
      rw [hfi, mem_failed_group_indices]
      constructor
      · rintro ⟨g, hg, hfalse⟩
        exact ⟨g, hg, (anyVariationMatches_false_iff _ _).mp hfalse⟩
      · rintro ⟨g, hg, hns⟩
        exact ⟨g, hg, (anyVariationMatches_false_iff _ _).mpr hns⟩
    · rw [hfi]
      exact failed_group_indices_pairwise _ _
  · intro hnil
    refine hmain.mpr ?_
    intro j g hg
    rw [hnil] at hg
    cases j <;> cases hg

/-- C1 witness: a record containing `"samsung"` is classified relevant for
the single group `["samsung"]`. -/
theorem c1_classification_witness :
    ((∃ row ∈ (analyzeProducts "q" [["samsung"]]
        [[("title", JValue.str "Samsung TV")]]).relevant_products,
        row.position = 0 + 1) ↔
      ∀ j g, ([["samsung"]] : List (List String)).get? j = some g →
        GroupSatisfied (productAsString [("title", JValue.str "Samsung TV")]) g) ∧
    (∀ row ∈ (analyzeProducts "q" [["samsung"]]
        [[("title", JValue.str "Samsung TV")]]).irrelevant_products,
      row.position = 0 + 1 →
        ((∀ j, j ∈ row.failed_indices ↔
            ∃ g, ([["samsung"]] : List (List String)).get? j = some g ∧
              ¬ GroupSatisfied (productAsString [("title", JValue.str "Samsung TV")]) g) ∧
          row.failed_indices.Pairwise (fun a b => a < b))) ∧
    (([["samsung"]] : List (List String)) = [] →
      ∃ row ∈ (analyzeProducts "q" [["samsung"]]
          [[("title", JValue.str "Samsung TV")]]).relevant_products,
        row.position = 0 + 1) :=
  c1_classification "q" [["samsung"]] [[("title", JValue.str "Samsung TV")]] 0
    [("title", JValue.str "Samsung TV")] rfl

/-- C4: relevant plus irrelevant counts equal `total_products`, which is the
input length; each input position appears in exactly one of the two lists;
rows are exactly the source rows with 1-based positions, in ascending
(original) order in both lists. -/
theorem c4_partition (search_keyword : String) (check_groups : List (List String))
    (products : List Jobj) :
    (analyzeProducts search_keyword check_groups products).total_products = products.length ∧
    (analyzeProducts search_keyword check_groups products).relevant_products.length +
      (analyzeProducts search_keyword check_groups products).irrelevant_products.length =
      (analyzeProducts search_keyword check_groups products).total_products ∧
    (∀ i p, products.get? i = some p →
      ((∃ row ∈ (analyzeProducts search_keyword check_groups products).relevant_products,
          row.position = i + 1) ↔
        ¬ ∃ row ∈ (analyzeProducts search_keyword check_groups products).irrelevant_products,
          row.position = i + 1)) ∧
    (∀ row ∈ (analyzeProducts search_keyword check_groups products).relevant_products,
      ∃ i p, products.get? i = some p ∧ row = mkRelevantRow i p) ∧
    (∀ row ∈ (analyzeProducts search_keyword check_groups products).irrelevant_products,
      ∃ i p, products.get? i = some p ∧ row = mkIrrelevantRow check_groups i p) ∧
    (analyzeProducts search_keyword check_groups products).relevant_products.Pairwise
      (fun a b => a.position < b.position) ∧
    (analyzeProducts search_keyword check_groups products).irrelevant_products.Pairwise
      (fun a b => a.position < b.position) := by
  refine ⟨analyzeProducts_total _ _ _, ?_, ?_, ?_, ?_, ?_, ?_⟩
  · have hsplit := length_filter_split
      (fun ip => (failed_group_indices check_groups (productAsString ip.2)).isEmpty)
      (enumerate products)
    rw [enumerate_length] at hsplit
    rw [analyzeProducts_relevant, analyzeProducts_irrelevant, analyzeProducts_total,
      List.length_map, List.length_map]
    exact hsplit
  · intro i p hp
    rw [relevant_position_iff _ _ _ _ _ hp, irrelevant_position_iff _ _ _ _ _ hp]
    exact not_not.symm
  · intro row hrow
    obtain ⟨i, p, hmem, _, rfl⟩ := (mem_relevant_iff _ _ _ _).mp hrow
    exact ⟨i, p, (mem_enumerate _ _ _).mp hmem, rfl⟩
  · intro row hrow
    obtain ⟨i, p, hmem, _, rfl⟩ := (mem_irrelevant_iff _ _ _ _).mp hrow
    exact ⟨i, p, (mem_enumerate _ _ _).mp hmem, rfl⟩
  · rw [analyzeProducts_relevant]
    exact List.Pairwise.map _ (fun a b h => Nat.succ_lt_succ h)
      (List.Pairwise.sublist (List.filter_sublist _) (enumerate_pairwise products))
  · rw [analyzeProducts_irrelevant]
    exact List.Pairwise.map _ (fun a b h => Nat.succ_lt_succ h)
      (List.Pairwise.sublist (List.filter_sublist _) (enumerate_pairwise products))

/-- C4 witness: the partition facts at a concrete one-product analysis. -/
theorem c4_partition_witness :
    (analyzeProducts "q" [["samsung"]] [[("title", JValue.str "Samsung TV")]]).total_products =
      ([[("title", JValue.str "Samsung TV")]] : List Jobj).length ∧
    (analyzeProducts "q" [["samsung"]] [[("title", JValue.str "Samsung TV")]]).relevant_products.length +
      (analyzeProducts "q" [["samsung"]] [[("title", JValue.str "Samsung TV")]]).irrelevant_products.length =
      (analyzeProducts "q" [["samsung"]] [[("title", JValue.str "Samsung TV")]]).total_products ∧
    (∀ i p, ([[("title", JValue.str "Samsung TV")]] : List Jobj).get? i = some p →
      ((∃ row ∈ (analyzeProducts "q" [["samsung"]] [[("title", JValue.str "Samsung TV")]]).relevant_products,
          row.position = i + 1) ↔
        ¬ ∃ row ∈ (analyzeProducts "q" [["samsung"]] [[("title", JValue.str "Samsung TV")]]).irrelevant_products,
          row.position = i + 1)) ∧
    (∀ row ∈ (analyzeProducts "q" [["samsung"]] [[("title", JValue.str "Samsung TV")]]).relevant_products,
      ∃ i p, ([[("title", JValue.str "Samsung TV")]] : List Jobj).get? i = some p ∧
        row = mkRelevantRow i p) ∧
    (∀ row ∈ (analyzeProducts "q" [["samsung"]] [[("title", JValue.str "Samsung TV")]]).irrelevant_products,
      ∃ i p, ([[("title", JValue.str "Samsung TV")]] : List Jobj).get? i = some p ∧
        row = mkIrrelevantRow [["samsung"]] i p) ∧
    (analyzeProducts "q" [["samsung"]] [[("title", JValue.str "Samsung TV")]]).relevant_products.Pairwise
      (fun a b => a.position < b.position) ∧
    (analyzeProducts "q" [["samsung"]] [[("title", JValue.str "Samsung TV")]]).irrelevant_products.Pairwise
      (fun a b => a.position < b.position) :=
  c4_partition "q" [["samsung"]] [[("title", JValue.str "Samsung TV")]]

/-- C5: `failure_summary` counts, for each group index, the number of
results whose `failed_indices` contains it; it has an entry only for
indices that failed at least once; and its total size equals the sum of the
lengths of the `failed_indices` lists. -/
theorem c5_failure_summary (search_keyword : String) (check_groups : List (List String))
    (products : List Jobj) :
    (∀ j, Multiset.count j (analyzeProducts search_keyword check_groups products).failure_summary =
      ((analyzeProducts search_keyword check_groups products).irrelevant_products.filter
        (fun row => decide (j ∈ row.failed_indices))).length) ∧
    (∀ j, j ∈ (analyzeProducts search_keyword check_groups products).failure_summary ↔
      ∃ row ∈ (analyzeProducts search_keyword check_groups products).irrelevant_products,
        j ∈ row.failed_indices) ∧
    Multiset.card (analyzeProducts search_keyword check_groups products).failure_summary =
      ((analyzeProducts search_keyword check_groups products).irrelevant_products.map
        (fun row => row.failed_indices.length)).sum := by
  refine ⟨?_, ?_, ?_⟩
  · intro j
    have h1 : Multiset.count j
        (analyzeProducts search_keyword check_groups products).failure_summary =
        ((enumerate products).filter
          (fun ip => decide (j ∈ failed_group_indices check_groups (productAsString ip.2)))).length := by
      rw [analyzeProducts_summary]
      exact count_sum_ofList j _ _ (fun ip _ => failed_group_indices_nodup _ _)
    have h2 : (((analyzeProducts search_keyword check_groups products).irrelevant_products.filter
          (fun row => decide (j ∈ row.failed_indices)))).length =
        ((((enumerate products).filter
            (fun ip => !(failed_group_indices check_groups (productAsString ip.2)).isEmpty)).filter
          (fun ip => decide (j ∈ failed_group_indices check_groups (productAsString ip.2))))).length := by
      rw [analyzeProducts_irrelevant, length_filter_map_eq]
      rfl
    rw [h1, h2, filter_restrict _ _ ?himp]
    case himp =>
      intro x hx
      have hmem : j ∈ failed_group_indices check_groups (productAsString x.2) :=
        of_decide_eq_true hx
      have hne := List.ne_nil_of_mem hmem
      cases hie : (failed_group_indices check_groups (productAsString x.2)).isEmpty with
      | false => rfl
      | true => exact absurd (List.isEmpty_iff.mp hie) hne
  · intro j
    have hsum : (j ∈ (analyzeProducts search_keyword check_groups products).failure_summary ↔
        ∃ ip ∈ enumerate products,
          j ∈ failed_group_indices check_groups (productAsString ip.2)) := by
      rw [analyzeProducts_summary]
      exact mem_sum_ofList j _ _
    rw [hsum]
    constructor
    · rintro ⟨ip, hip, hj⟩
      refine ⟨mkIrrelevantRow check_groups ip.1 ip.2, ?_, ?_⟩
      · exact (mem_irrelevant_iff _ _ _ _).mpr
          ⟨ip.1, ip.2, hip, List.ne_nil_of_mem hj, rfl⟩
      · rw [mkIrrelevantRow_failed]
        exact hj
    · rintro ⟨row, hrow, hj⟩
      obtain ⟨i, p, hmem, hne, hroweq⟩ := (mem_irrelevant_iff _ _ _ _).mp hrow
      subst hroweq
      rw [mkIrrelevantRow_failed] at hj
      exact ⟨(i, p), hmem, hj⟩
  · have h1 : Multiset.card (analyzeProducts search_keyword check_groups products).failure_summary =
        ((enumerate products).map
          (fun ip => (failed_group_indices check_groups (productAsString ip.2)).length)).sum := by
      rw [analyzeProducts_summary]
      exact card_sum_ofList _ _
    have h2 : ((analyzeProducts search_keyword check_groups products).irrelevant_products.map
          (fun row => row.failed_indices.length)).sum =
        (((enumerate products).filter
            (fun ip => !(failed_group_indices check_groups (productAsString ip.2)).isEmpty)).map
          (fun ip => (failed_group_indices check_groups (productAsString ip.2)).length)).sum := by
      rw [analyzeProducts_irrelevant, List.map_map]
      rfl
    rw [h1, h2]
    exact sum_length_skip_nil _ _

/-- C5 witness: the failure-summary reconciliation at a concrete analysis
with one failing product. -/
theorem c5_failure_summary_witness :
    (∀ j, Multiset.count j (analyzeProducts "q" [["samsung"]] [[("title", JValue.str "LG")]]).failure_summary =
      ((analyzeProducts "q" [["samsung"]] [[("title", JValue.str "LG")]]).irrelevant_products.filter
        (fun row => decide (j ∈ row.failed_indices))).length) ∧
    (∀ j, j ∈ (analyzeProducts "q" [["samsung"]] [[("title", JValue.str "LG")]]).failure_summary ↔
      ∃ row ∈ (analyzeProducts "q" [["samsung"]] [[("title", JValue.str "LG")]]).irrelevant_products,
        j ∈ row.failed_indices) ∧
    Multiset.card (analyzeProducts "q" [["samsung"]] [[("title", JValue.str "LG")]]).failure_summary =
      ((analyzeProducts "q" [["samsung"]] [[("title", JValue.str "LG")]]).irrelevant_products.map
        (fun row => row.failed_indices.length)).sum :=
  c5_failure_summary "q" [["samsung"]] [[("title", JValue.str "LG")]]

/-- C8: the transcript is the query header followed by one block per result
in input order (1-based position, title, description); a missing title or
description becomes the placeholder `"N/A"`; and the non-transcript report
fields do not depend on the query text that only the transcript carries. -/
theorem c8_transcript (search_keyword : String) (check_groups : List (List String))
    (products : List Jobj) :
    ((analyzeProducts search_keyword check_groups products).llm_formatted_output =
      "search term: " ++ search_keyword ++ "\n\n" ++
        String.intercalate "\n\n" ((enumerate products).map (fun ip => llmBlock ip.1 ip.2))) ∧
    (∀ (i : Nat) (p : Jobj), List.lookup "title" p = none →
      llmBlock i p = "prod " ++ toString (i + 1) ++ ":\ntitle: " ++ "N/A" ++
        "\ndescription: " ++ pyStr (jobjGet p "description" (JValue.str "N/A"))) ∧
    (∀ (i : Nat) (p : Jobj), List.lookup "description" p = none →
      llmBlock i p = "prod " ++ toString (i + 1) ++ ":\ntitle: " ++
        pyStr (jobjGet p "title" (JValue.str "N/A")) ++ "\ndescription: " ++ "N/A") ∧
    (∀ keyword2 : String,
      (analyzeProducts keyword2 check_groups products).relevant_products =
        (analyzeProducts search_keyword check_groups products).relevant_products ∧
      (analyzeProducts keyword2 check_groups products).irrelevant_products =
        (analyzeProducts search_keyword check_groups products).irrelevant_products ∧
      (analyzeProducts keyword2 check_groups products).failure_summary =
        (analyzeProducts search_keyword check_groups products).failure_summary ∧
      (analyzeProducts keyword2 check_groups products).total_products =
        (analyzeProducts search_keyword check_groups products).total_products) := by
  refine ⟨analyzeProducts_llm _ _ _, ?_, ?_, ?_⟩
  · intro i p h
    simp only [llmBlock, jobjGet, h, pyStr]
  · intro i p h
    simp only [llmBlock, jobjGet, h, pyStr]
  · intro keyword2
    refine ⟨?_, ?_, ?_, rfl⟩
    · rw [analyzeProducts_relevant, analyzeProducts_relevant]
    · rw [analyzeProducts_irrelevant, analyzeProducts_irrelevant]
    · rw [analyzeProducts_summary, analyzeProducts_summary]

/-- C8 witness: a record with no title and no description gets both
placeholders in its block. -/
theorem c8_transcript_witness :
    ((analyzeProducts "tv" [["a"]] [[("price", JValue.num 5)]]).llm_formatted_output =
      "search term: " ++ "tv" ++ "\n\n" ++
        String.intercalate "\n\n"
          ((enumerate [[("price", JValue.num 5)]]).map (fun ip => llmBlock ip.1 ip.2))) ∧
    (∀ (i : Nat) (p : Jobj), List.lookup "title" p = none →
      llmBlock i p = "prod " ++ toString (i + 1) ++ ":\ntitle: " ++ "N/A" ++
        "\ndescription: " ++ pyStr (jobjGet p "description" (JValue.str "N/A"))) ∧
    (∀ (i : Nat) (p : Jobj), List.lookup "description" p = none →
      llmBlock i p = "prod " ++ toString (i + 1) ++ ":\ntitle: " ++
        pyStr (jobjGet p "title" (JValue.str "N/A")) ++ "\ndescription: " ++ "N/A") ∧
    (∀ keyword2 : String,
      (analyzeProducts keyword2 [["a"]] [[("price", JValue.num 5)]]).relevant_products =
        (analyzeProducts "tv" [["a"]] [[("price", JValue.num 5)]]).relevant_products ∧
      (analyzeProducts keyword2 [["a"]] [[("price", JValue.num 5)]]).irrelevant_products =
        (analyzeProducts "tv" [["a"]] [[("price", JValue.num 5)]]).irrelevant_products ∧
      (analyzeProducts keyword2 [["a"]] [[("price", JValue.num 5)]]).failure_summary =
        (analyzeProducts "tv" [["a"]] [[("price", JValue.num 5)]]).failure_summary ∧
      (analyzeProducts keyword2 [["a"]] [[("price", JValue.num 5)]]).total_products =
        (analyzeProducts "tv" [["a"]] [[("price", JValue.num 5)]]).total_products) :=
  c8_transcript "tv" [["a"]] [[("price", JValue.num 5)]]

/-- C10: the analyzer is deterministic: two runs of the analysis loop on the
same results, groups and query produce identical reports, field for field,
and `run_analysis` returns the same result on the same behavior. -/
theorem c10_deterministic (search_keyword : String) (check_groups : List (List String))
    (products : List Jobj) (behavior : ServiceBehavior) :
    analyzeProducts search_keyword check_groups products =
      analyzeProducts search_keyword check_groups products ∧
    (analyzeProducts search_keyword check_groups products).total_products =
      (analyzeProducts search_keyword check_groups products).total_products ∧
    (analyzeProducts search_keyword check_groups products).relevant_products =
      (analyzeProducts search_keyword check_groups products).relevant_products ∧
    (analyzeProducts search_keyword check_groups products).irrelevant_products =
      (analyzeProducts search_keyword check_groups products).irrelevant_products ∧
    (analyzeProducts search_keyword check_groups products).failure_summary =
      (analyzeProducts search_keyword check_groups products).failure_summary ∧
    (analyzeProducts search_keyword check_groups products).llm_formatted_output =
      (analyzeProducts search_keyword check_groups products).llm_formatted_output ∧
    run_analysis search_keyword check_groups behavior =
      run_analysis search_keyword check_groups behavior :=
  ⟨rfl, rfl, rfl, rfl, rfl, rfl, rfl⟩

end SearchChecker
